import Mathlib

/-!
Verification development for the tile-based raster visualization and caching
engine of the climate-data research platform.

The definitions below are a shallow embedding of the core functions of
`src/frontend/components/raster-map-viewer.tsx` (tile key construction, tile
grid calculation, the tile cache / single-flight load pipeline, the per-pixel
color mapper and tile renderer, the animation tick) and of the color-scale
interpolation code of the canvas raster viewer (`getColorScales`,
`interpolateColor`).  JavaScript numbers are modelled as exact rationals,
except where IEEE-754 division by zero is itself the behavior under study,
which is modelled by the extended-number type `JSNum`.  React state updates
are modelled by explicit state passing on `ViewerState`; the functional
updaters passed to `setLoadingTiles`/`setErrorTiles`/`setLoadedTiles` receive
the latest state, so they act on the current `ViewerState`, while the
`loadingTiles.has(tileKey)` guard inside `loadTile` reads the `Set` captured
by the `useCallback` closure when it was created — `setLoadingTiles` replaces
the state with a new `Set` and never mutates the captured one, and the
callback is memoized on `[filename]`, so that captured snapshot is passed to
the load functions as a separate argument.
-/

/-- JavaScript's `Math.round` on an exact rational: round half up. -/
def jsRound (q : ℚ) : ℤ := ⌊q + 1/2⌋

/-- The integers `lo, lo+1, ..., hi` (empty when `hi < lo`): the values taken by
an increment-by-one `for` loop running from `lo` while `≤ hi`. -/
def intRange (lo hi : ℤ) : List ℤ :=
  (List.range (hi + 1 - lo).toNat).map fun (i : ℕ) => lo + (i : ℤ)

/-! ## Tile keys (`getTileKey`, raster-map-viewer.tsx lines 177-185) -/

/-- The decimal digit character for `d < 10` (JavaScript number-to-string of a digit). -/
def digitChar (d : ℕ) : Char :=
  match d with
  | 0 => '0' | 1 => '1' | 2 => '2' | 3 => '3' | 4 => '4'
  | 5 => '5' | 6 => '6' | 7 => '7' | 8 => '8' | 9 => '9'
  | _ => '*'

/-- Decimal digit list of a natural number, most significant first: the characters
produced by JavaScript template interpolation of a non-negative integer. -/
def natDigits (n : ℕ) : List Char :=
  if _h : n < 10 then [digitChar n]
  else natDigits (n / 10) ++ [digitChar (n % 10)]
decreasing_by exact Nat.div_lt_self (by omega) (by omega)

/-- Decimal rendering of a natural number, as JavaScript renders a non-negative
integer inside a template literal. -/
def natToString (n : ℕ) : String := ⟨natDigits n⟩

/-- `getTileKey(x, y, z, variable, timeIndex)`: the template literal
`${variable}-${timeIndex}-${z}-${x}-${y}`. -/
def getTileKey (x y z : ℕ) (variableName : String) (timeIndex : ℕ) : String :=
  variableName ++ "-" ++ natToString timeIndex ++ "-" ++ natToString z ++ "-" ++
    natToString x ++ "-" ++ natToString y

/-! ## Tile cache and load pipeline (raster-map-viewer.tsx lines 215-288) -/

/-- `TileData`: a tile cache entry — the tile payload matrix together with the
`cached` flag and the `timestamp` recorded at `Date.now()`. -/
structure TileData where
  tile : List (List ℚ)
  cached : Bool
  timestamp : ℤ

/-- The mutable state of the viewer touched by `loadTile`: the `tileCache` ref
map and the `loadingTiles`/`loadedTiles`/`errorTiles` key sets. -/
structure ViewerState where
  tileCache : String → Option TileData
  loadingTiles : String → Bool
  loadedTiles : String → Bool
  errorTiles : String → Bool

/-- The viewer state at mount: empty cache, all key sets empty. -/
def initialViewerState : ViewerState :=
  ⟨fun _ => none, fun _ => false, fun _ => false, fun _ => false⟩

/-- The cache consultation at the head of `loadTile` (lines 225-232): if the key
is present and `now - cached.timestamp < 300000` the entry is returned ("cache
for 5 minutes"); a stale or absent entry yields `none` and control falls
through to the fetch path. -/
def cacheLookup (cache : String → Option TileData) (now : ℤ) (key : String) :
    Option TileData :=
  match cache key with
  | some cached => if now - cached.timestamp < 300000 then some cached else none
  | none => none

/-- Outcome of the synchronous prefix of `loadTile`: a fresh cache hit, a skip
because the key is already in `loadingTiles`, or proceeding to a fetch. -/
inductive CheckResult where
  | hit (td : TileData)
  | pending
  | proceed

/-- The decision made by `loadTile` before any network activity (lines
225-237): consult the cache (a ref, always current), then
`if (loadingTiles.has(tileKey)) return null`, otherwise proceed to fetch.
`loadingTiles` here is the `Set` captured by the `useCallback` closure when it
was created (dependency array `[filename]`, line 287): `setLoadingTiles`
replaces the state with a new `Set` without mutating the captured one, so the
guard consults the creation-time snapshot `loadingSnapshot`, not the current
state. -/
def loadTileCheck (cache : String → Option TileData) (loadingSnapshot : String → Bool)
    (now : ℤ) (key : String) : CheckResult :=
  match cacheLookup cache now key with
  | some td => .hit td
  | none => if loadingSnapshot key then .pending else .proceed

/-- Lines 239-244: add the key to `loadingTiles` and delete it from
`errorTiles` just before issuing the fetch. -/
def markStart (st : ViewerState) (key : String) : ViewerState :=
  { st with
    loadingTiles := fun k => if k = key then true else st.loadingTiles k
    errorTiles := fun k => if k = key then false else st.errorTiles k }

/-- Lines 256-270: on fetch success, store the tile in `tileCache`, delete the
key from `loadingTiles` and add it to `loadedTiles`. -/
def finishSuccess (st : ViewerState) (key : String) (td : TileData) : ViewerState :=
  { st with
    tileCache := fun k => if k = key then some td else st.tileCache k
    loadingTiles := fun k => if k = key then false else st.loadingTiles k
    loadedTiles := fun k => if k = key then true else st.loadedTiles k }

/-- Lines 273-284: on fetch failure, delete the key from `loadingTiles` and add
it to `errorTiles`; the cache is not touched. -/
def finishFailure (st : ViewerState) (key : String) : ViewerState :=
  { st with
    loadingTiles := fun k => if k = key then false else st.loadingTiles k
    errorTiles := fun k => if k = key then true else st.errorTiles k }

/-- Result of the single network attempt made by a `loadTile` call. -/
inductive FetchOutcome where
  | success (tile : List (List ℚ))
  | failure

/-- The synchronous prefix of a `loadTile` call, up to its suspension point
(the `await` of the fetch): the state after it and the number of network
requests it issued (1 when it proceeds to fetch, 0 otherwise).  The guard
reads `loadingSnapshot`, the `Set` captured by the memoized callback; the
`setLoadingTiles`/`setErrorTiles` updaters act on the current state `st`.  A
second call within the pending window of a first call runs against the state
left by the first call's prefix but, the callback not having been recreated,
with the same captured snapshot. -/
def loadTileStart (st : ViewerState) (loadingSnapshot : String → Bool) (now : ℤ)
    (key : String) : ViewerState × ℕ :=
  match loadTileCheck st.tileCache loadingSnapshot now key with
  | .proceed => (markStart st key, 1)
  | _ => (st, 0)

/-- A whole `loadTile` call (lines 215-288), with the outcome of its (at most
one) network request supplied as a parameter: returns the value `loadTile`
returns (the tile data or `null`), the resulting state, and the number of
network requests issued.  `loadingSnapshot` is the `Set` the callback closed
over; the state updates act on the current state `st`. -/
def loadTile (st : ViewerState) (loadingSnapshot : String → Bool) (now : ℤ)
    (key : String) (outcome : FetchOutcome) :
    Option TileData × ViewerState × ℕ :=
  match loadTileCheck st.tileCache loadingSnapshot now key with
  | .hit td => (some td, st, 0)
  | .pending => (none, st, 0)
  | .proceed =>
    let st1 := markStart st key
    match outcome with
    | .success tile =>
      let td : TileData := ⟨tile, true, now⟩
      (some td, finishSuccess st1 key td, 1)
    | .failure => (none, finishFailure st1 key, 1)

/-! ## Coordinate mapper (`calculateTileGrid`, raster-map-viewer.tsx lines 187-212) -/

/-- The geographic viewport bounds, in degrees. -/
structure ViewportBounds where
  north : ℚ
  south : ℚ
  east : ℚ
  west : ℚ

/-- `startX = Math.floor(((bounds.west + 180) / 360) * tilesPerRow)`. -/
def tileStartX (b : ViewportBounds) (zoom : ℕ) : ℤ :=
  ⌊(b.west + 180) / 360 * (2 : ℚ) ^ zoom⌋

/-- `endX = Math.ceil(((bounds.east + 180) / 360) * tilesPerRow)`. -/
def tileEndX (b : ViewportBounds) (zoom : ℕ) : ℤ :=
  ⌈(b.east + 180) / 360 * (2 : ℚ) ^ zoom⌉

/-- `startY = Math.floor(((90 - bounds.north) / 180) * tilesPerRow)`. -/
def tileStartY (b : ViewportBounds) (zoom : ℕ) : ℤ :=
  ⌊(90 - b.north) / 180 * (2 : ℚ) ^ zoom⌋

/-- `endY = Math.ceil(((90 - bounds.south) / 180) * tilesPerRow)`. -/
def tileEndY (b : ViewportBounds) (zoom : ℕ) : ℤ :=
  ⌈(90 - b.south) / 180 * (2 : ℚ) ^ zoom⌉

/-- `calculateTileGrid(bounds, zoom)`: the nested `for` loops
`for (x = max(0, startX); x <= min(tilesPerRow - 1, endX); x++)`
`for (y = max(0, startY); y <= min(tilesPerRow - 1, endY); y++)`
pushing `{x, y, z: zoom}`. -/
def calculateTileGrid (b : ViewportBounds) (zoom : ℕ) : List (ℤ × ℤ × ℕ) :=
  let tilesPerRow : ℤ := 2 ^ zoom
  (intRange (max 0 (tileStartX b zoom)) (min (tilesPerRow - 1) (tileEndX b zoom))).flatMap
    fun x =>
      (intRange (max 0 (tileStartY b zoom)) (min (tilesPerRow - 1) (tileEndY b zoom))).map
        fun y => (x, y, zoom)

/-- Modelled from the spec's words (section 4.1): "Take `floor` of the lower
bound and `ceil` of the upper bound on each axis, then clamp to
`[0, tilesPerRow-1]`. Produces the Cartesian product of the clamped x-range and
y-range."  Each of the four projections is clamped on both sides into
`[0, tilesPerRow - 1]`; used only to compare the spec's description with
`calculateTileGrid`. -/
def specClampedTileGrid (b : ViewportBounds) (zoom : ℕ) : List (ℤ × ℤ × ℕ) :=
  let tilesPerRow : ℤ := 2 ^ zoom
  let clamp : ℤ → ℤ := fun v => min (tilesPerRow - 1) (max 0 v)
  (intRange (clamp (tileStartX b zoom)) (clamp (tileEndX b zoom))).flatMap
    fun x =>
      (intRange (clamp (tileStartY b zoom)) (clamp (tileEndY b zoom))).map
        fun y => (x, y, zoom)

/-! ## Color scales and interpolation (canvas raster viewer, `getColorScales`
and `interpolateColor`) -/

/-- One control point of a color ramp: a stop position in `[0,1]` and an RGB
triple of integer channels. -/
structure ColorStop where
  pos : ℚ
  r : ℤ
  g : ℤ
  b : ℤ

/-- The `viridis` ramp of `getColorScales`. -/
def viridisScale : List ColorStop :=
  [⟨0, 68, 1, 84⟩, ⟨1/4, 59, 82, 139⟩, ⟨1/2, 33, 145, 140⟩,
   ⟨3/4, 94, 201, 98⟩, ⟨1, 253, 231, 37⟩]

/-- The `plasma` ramp of `getColorScales`. -/
def plasmaScale : List ColorStop :=
  [⟨0, 13, 8, 135⟩, ⟨1/4, 126, 3, 168⟩, ⟨1/2, 203, 70, 121⟩,
   ⟨3/4, 248, 149, 64⟩, ⟨1, 240, 249, 33⟩]

/-- The `blues` ramp of `getColorScales`. -/
def bluesScale : List ColorStop :=
  [⟨0, 247, 251, 255⟩, ⟨1/4, 198, 219, 239⟩, ⟨1/2, 107, 174, 214⟩,
   ⟨3/4, 49, 130, 189⟩, ⟨1, 8, 81, 156⟩]

/-- The `precipitation` ramp of `getColorScales`. -/
def precipitationScale : List ColorStop :=
  [⟨0, 255, 255, 255⟩, ⟨1/5, 199, 233, 180⟩, ⟨2/5, 127, 205, 187⟩,
   ⟨3/5, 65, 182, 196⟩, ⟨4/5, 29, 145, 192⟩, ⟨1, 34, 94, 168⟩]

/-- `scales[colorScale as keyof typeof scales] || scales.viridis`: look the
named ramp up in the `getColorScales()` object, falling back to viridis. -/
def getColorScales (name : String) : List ColorStop :=
  if name = "viridis" then viridisScale
  else if name = "plasma" then plasmaScale
  else if name = "blues" then bluesScale
  else if name = "precipitation" then precipitationScale
  else viridisScale

/-- The bracketing-stop search loop of `interpolateColor`:
`for (i = 0; i < scale.length - 1; i++) if (normalized >= scale[i][0] &&
normalized <= scale[i+1][0]) { lowerIndex = i; upperIndex = i + 1; break; }`;
returns the index at which the loop breaks, if any. -/
def bracketFrom : List ColorStop → ℚ → ℕ → Option ℕ
  | s0 :: s1 :: rest, n, i =>
    if s0.pos ≤ n ∧ n ≤ s1.pos then some i else bracketFrom (s1 :: rest) n (i + 1)
  | _, _, _ => none

/-- The `(lowerIndex, upperIndex)` pair selected by `interpolateColor`'s loop:
initialized to `(0, scale.length - 1)` and overwritten when the loop breaks. -/
def findBracket (scale : List ColorStop) (n : ℚ) : ℕ × ℕ :=
  match bracketFrom scale n 0 with
  | some i => (i, i + 1)
  | none => (0, scale.length - 1)

/-- The body of `interpolateColor` after `normalized` has been computed: select
the bracketing stops, compute
`t = upperIndex === lowerIndex ? 0 : (normalized - lower[0]) / (upper[0] - lower[0])`
and round the linear interpolation of each channel. -/
def interpAt (scale : List ColorStop) (normalized : ℚ) : ℤ × ℤ × ℤ :=
  let li := (findBracket scale normalized).1
  let ui := (findBracket scale normalized).2
  let lower := scale.getD li ⟨0, 0, 0, 0⟩
  let upper := scale.getD ui ⟨0, 0, 0, 0⟩
  let t : ℚ := if ui = li then 0 else (normalized - lower.pos) / (upper.pos - lower.pos)
  (jsRound ((lower.r : ℚ) + ((upper.r : ℚ) - (lower.r : ℚ)) * t),
   jsRound ((lower.g : ℚ) + ((upper.g : ℚ) - (lower.g : ℚ)) * t),
   jsRound ((lower.b : ℚ) + ((upper.b : ℚ) - (lower.b : ℚ)) * t))

/-- `interpolateColor(value, min, max, colorScale)`:
`normalized = Math.max(0, Math.min(1, (value - min) / (max - min)))` followed by
bracketing-stop selection and per-channel linear interpolation. -/
def interpolateColor (value minV maxV : ℚ) (colorScale : String) : ℤ × ℤ × ℤ :=
  interpAt (getColorScales colorScale) (max 0 (min 1 ((value - minV) / (maxV - minV))))

/-- The RGB triple of the first control point of a ramp. -/
def firstStopColor (scale : List ColorStop) : ℤ × ℤ × ℤ :=
  let s := scale.headD ⟨0, 0, 0, 0⟩
  (s.r, s.g, s.b)

/-- The RGB triple of the last control point of a ramp. -/
def lastStopColor (scale : List ColorStop) : ℤ × ℤ × ℤ :=
  let s := scale.getLastD ⟨0, 0, 0, 0⟩
  (s.r, s.g, s.b)

/-! ## Per-pixel color mapper of the tile renderer (`getColor` inside
`renderTileToCanvas`, raster-map-viewer.tsx lines 301-346) -/

/-- `getColor(value)` of `renderTileToCanvas`: normalize against the selected
variable's statistics and map through the selected hardcoded scale
(precipitation piecewise ramp, viridis two-point ramp, or the plasma default). -/
def getColor (value statsMin statsMax : ℚ) (colorScale : String) : ℤ × ℤ × ℤ :=
  let normalized := max 0 (min 1 ((value - statsMin) / (statsMax - statsMin)))
  if colorScale = "precipitation" then
    if normalized < 3/10 then
      let t := normalized / (3/10)
      (jsRound (255 * (1 - t) + 100 * t), jsRound (255 * (1 - t) + 200 * t), 255)
    else if normalized < 7/10 then
      let t := (normalized - 3/10) / (4/10)
      (jsRound (100 * (1 - t) + 50 * t), jsRound (200 * (1 - t) + 255 * t),
       jsRound (255 * (1 - t) + 50 * t))
    else
      let t := (normalized - 7/10) / (3/10)
      (jsRound (50 * (1 - t) + 255 * t), 255, jsRound (50 * (1 - t) + 0 * t))
  else if colorScale = "viridis" then
    (jsRound (68 + (253 - 68) * normalized), jsRound (1 + (231 - 1) * normalized),
     jsRound (84 + (37 - 84) * normalized))
  else
    (jsRound (13 + (240 - 13) * normalized), jsRound (8 + (249 - 8) * normalized),
     jsRound (135 + (33 - 135) * normalized))

/-- `tileData.tile[i]?.[j] ?? 0`: the cell value at `(i, j)`, defaulting to `0`
when the row or the element is absent. -/
def cellValue (tile : List (List ℚ)) (i j : ℕ) : ℚ :=
  ((tile.get? i).bind fun row => row.get? j).getD 0

/-- The full 256×256 matrix obtained by reading every cell of `tile` through
`cellValue` (absent entries become `0`). -/
def completeTile (tile : List (List ℚ)) : List (List ℚ) :=
  (List.range 256).map fun i => (List.range 256).map fun j => cellValue tile i j

/-- The pixel buffer written by `renderTileToCanvas` (lines 348-359): for every
cell `(i, j)` in row-major order, the RGB of `getColor` on the cell value and
the alpha `Math.round((opacity / 100) * 255)`. -/
def renderTileToCanvas (tile : List (List ℚ)) (statsMin statsMax : ℚ)
    (colorScale : String) (opacity : ℚ) : List ℤ :=
  (List.range 256).flatMap fun i =>
    (List.range 256).flatMap fun j =>
      let c := getColor (cellValue tile i j) statsMin statsMax colorScale
      [c.1, c.2.1, c.2.2, jsRound (opacity / 100 * 255)]

/-! ## IEEE-754 semantics of the normalization (for the degenerate-range case) -/

/-- A JavaScript (IEEE-754 double) number that is exactly representable, or one
of the special values produced by division by zero. -/
inductive JSNum where
  | fin (q : ℚ)
  | posInf
  | negInf
  | nan
deriving DecidableEq

/-- IEEE-754 division restricted to the shapes reached by the normalization
expression: a finite numerator over the finite (positive) zero denominator
yields `±Infinity`, and `0 / 0` yields `NaN`. -/
def JSNum.div : JSNum → JSNum → JSNum
  | .fin a, .fin b =>
    if b = 0 then (if 0 < a then .posInf else if a < 0 then .negInf else .nan)
    else .fin (a / b)
  | _, _ => .nan

/-- JavaScript's `Math.min` on two numbers: `NaN` absorbs, infinities compare. -/
def JSNum.minJ : JSNum → JSNum → JSNum
  | .nan, _ => .nan
  | _, .nan => .nan
  | .fin a, .fin b => .fin (min a b)
  | .posInf, x => x
  | x, .posInf => x
  | .negInf, _ => .negInf
  | _, .negInf => .negInf

/-- JavaScript's `Math.max` on two numbers: `NaN` absorbs, infinities compare. -/
def JSNum.maxJ : JSNum → JSNum → JSNum
  | .nan, _ => .nan
  | _, .nan => .nan
  | .fin a, .fin b => .fin (max a b)
  | .negInf, x => x
  | x, .negInf => x
  | .posInf, _ => .posInf
  | _, .posInf => .posInf

/-- The normalization expression
`Math.max(0, Math.min(1, (value - stats.min) / (stats.max - stats.min)))`
under IEEE-754 semantics, for exactly representable inputs. -/
def normalizedJS (value statsMin statsMax : ℚ) : JSNum :=
  JSNum.maxJ (.fin 0)
    (JSNum.minJ (.fin 1) (JSNum.div (.fin (value - statsMin)) (.fin (statsMax - statsMin))))

/-! ## Temporal animation (raster-map-viewer.tsx lines 517-528) -/

/-- One tick of the playback timer:
`setCurrentTimeIndex((prev) => (prev + 1) % metadata.dimensions.time)`. -/
def animationTick (timeIndex timeCount : ℕ) : ℕ := (timeIndex + 1) % timeCount

/-! ## Derived predicates and concrete example inputs -/

/-- All three channels of an RGB triple are integers in `[0, 255]`. -/
def chans255 (c : ℤ × ℤ × ℤ) : Prop :=
  0 ≤ c.1 ∧ c.1 ≤ 255 ∧ 0 ≤ c.2.1 ∧ c.2.1 ≤ 255 ∧ 0 ≤ c.2.2 ∧ c.2.2 ≤ 255

/-- The whole-world viewport (the viewer's initial `viewportBounds`). -/
def worldBounds : ViewportBounds := ⟨90, -90, 180, -180⟩

/-- A viewport whose west and east edges both sit on the antimeridian:
latitudes in `[-90, 90]` and longitudes in `[-180, 180]`. -/
def degenerateBounds : ViewportBounds := ⟨90, -90, 180, 180⟩

/-- A cache entry written at time 0. -/
def staleBoundaryEntry : TileData := ⟨[], true, 0⟩

/-- A cache holding exactly one entry, for the key `"pr-0-2-1-1"`. -/
def staleBoundaryCache : String → Option TileData :=
  fun k => if k = "pr-0-2-1-1" then some staleBoundaryEntry else none

/-! # Theorems -/

/-! ## C1: the single-flight guarantee fails in the program -/

/-- C1: the single-flight property fails at the failing input — two `loadTile`
calls for the key of tile `(pr, 0, 2, 1, 1)` within the pending window, both
running through the mount-time callback (whose captured `loadingTiles`
snapshot is the empty set) against an empty cache.  The first call's prefix
issues a fetch and puts the key into the current `loadingTiles` state, so by
the claim the second call should issue no new network request; but the second
call's guard consults the same stale captured snapshot, in which the key is
absent, and the second call fetches as well: two network calls, not one. -/
theorem loadTile_single_flight_failure :
    (loadTileStart initialViewerState initialViewerState.loadingTiles 0 "pr-0-2-1-1").2 = 1 ∧
    ((loadTileStart initialViewerState initialViewerState.loadingTiles 0
        "pr-0-2-1-1").1).loadingTiles "pr-0-2-1-1" = true ∧
    (loadTileStart
        (loadTileStart initialViewerState initialViewerState.loadingTiles 0 "pr-0-2-1-1").1
        initialViewerState.loadingTiles 0 "pr-0-2-1-1").2 = 1 := by
  refine ⟨?_, ?_, ?_⟩ <;>
    simp [loadTileStart, loadTileCheck, cacheLookup, markStart, initialViewerState]

/-! ## C2: the staleness window of the cache lookup -/

/-- C2 counterexample: an entry whose age is exactly `300000` ms (`cachedAt = 0`,
`now = 300000`) is present and its age does not exceed `300000`, yet the lookup
reports a Miss — the code tests `now - cached.timestamp < 300000` strictly, so
the claimed "hit iff age ≤ 300000" fails at the boundary. -/
theorem cacheLookup_boundary_counterexample :
    staleBoundaryCache "pr-0-2-1-1" = some staleBoundaryEntry ∧
    (300000 : ℤ) - staleBoundaryEntry.timestamp ≤ 300000 ∧
    cacheLookup staleBoundaryCache 300000 "pr-0-2-1-1" = none := by
  refine ⟨by simp [staleBoundaryCache], by simp [staleBoundaryEntry], ?_⟩
  norm_num [cacheLookup, staleBoundaryCache, staleBoundaryEntry]

/-- C2 (amended): a cache lookup returns a hit iff the entry is present and
`now - cachedAt` is strictly less than `300000` ms; a miss (absent or stale)
with the key not loading sends `loadTile` down the fetch path, and the lookup
itself never modifies the cache (it is a pure function of it). -/
theorem cacheLookup_staleness :
    (∀ (cache : String → Option TileData) (now : ℤ) (key : String) (td : TileData),
        cacheLookup cache now key = some td ↔
          cache key = some td ∧ now - td.timestamp < 300000) ∧
    (∀ (cache : String → Option TileData) (snap : String → Bool) (now : ℤ) (key : String),
        cacheLookup cache now key = none → snap key = false →
        loadTileCheck cache snap now key = .proceed) := by
  constructor
  · intro cache now key td
    rcases hc : cache key with _ | e
    · simp only [cacheLookup, hc]
      simp
    · simp only [cacheLookup, hc]
      by_cases h : now - e.timestamp < 300000
      · rw [if_pos h]
        constructor
        · intro he
          injection he with he
          subst he
          exact ⟨rfl, h⟩
        · rintro ⟨he, _⟩
          exact he
      · rw [if_neg h]
        constructor
        · intro hne
          exact absurd hne (by simp)
        · rintro ⟨he, hlt⟩
          injection he with he
          subst he
          exact absurd hlt h
  · intro cache snap now key h1 h2
    simp [loadTileCheck, h1, h2]

/-- Witness for C2's amended theorem: at the empty state a miss proceeds to the
fetch path. -/
theorem cacheLookup_staleness_witness :
    loadTileCheck initialViewerState.tileCache initialViewerState.loadingTiles 0
      "pr-0-2-1-1" = .proceed :=
  cacheLookup_staleness.2 initialViewerState.tileCache initialViewerState.loadingTiles 0
    "pr-0-2-1-1" rfl rfl

/-! ## C6: failure atomicity and error marking of `loadTile` -/

/-- C6: when the fetch fails, `loadTile` returns `null`, made exactly one
attempt, left the cache without the key, removed the key from `loadingTiles`,
added it to `errorTiles`; and a later call for the same key (through a
callback whose captured loading snapshot does not contain the key — the
mount-time snapshot never does) proceeds to a new fetch whose pending-mark
removes the key from `errorTiles`. -/
theorem loadTile_failure_marks_error (st : ViewerState) (snap : String → Bool)
    (now now2 : ℤ) (key : String)
    (habs : st.tileCache key = none) (hsnap : snap key = false) :
    (loadTile st snap now key .failure).1 = none ∧
    (loadTile st snap now key .failure).2.2 = 1 ∧
    (loadTile st snap now key .failure).2.1.tileCache key = none ∧
    (loadTile st snap now key .failure).2.1.loadingTiles key = false ∧
    (loadTile st snap now key .failure).2.1.errorTiles key = true ∧
    (loadTileStart (loadTile st snap now key .failure).2.1 snap now2 key).2 = 1 ∧
    (loadTileStart (loadTile st snap now key .failure).2.1 snap now2 key).1.errorTiles
      key = false := by
  have hc : cacheLookup st.tileCache now key = none := by
    simp [cacheLookup, habs]
  have hrun : loadTile st snap now key .failure =
      (none, finishFailure (markStart st key) key, 1) := by
    simp [loadTile, loadTileCheck, hc, hsnap]
  rw [hrun]
  have hcache : (finishFailure (markStart st key) key).tileCache key = none := habs
  have hload : (finishFailure (markStart st key) key).loadingTiles key = false := by
    simp [finishFailure]
  have herr : (finishFailure (markStart st key) key).errorTiles key = true := by
    simp [finishFailure]
  have hc2 : cacheLookup (finishFailure (markStart st key) key).tileCache now2 key = none := by
    simp [cacheLookup, hcache]
  have hstart2 : loadTileStart (finishFailure (markStart st key) key) snap now2 key =
      (markStart (finishFailure (markStart st key) key) key, 1) := by
    simp [loadTileStart, loadTileCheck, hc2, hsnap]
  refine ⟨rfl, rfl, hcache, hload, herr, ?_, ?_⟩
  · rw [hstart2]
  · rw [hstart2]
    simp [markStart]

/-- Witness for C6 at the empty initial state and its mount-time snapshot. -/
theorem loadTile_failure_marks_error_witness :
    (loadTile initialViewerState initialViewerState.loadingTiles 0 "pr-0-2-1-1"
      .failure).2.1.errorTiles "pr-0-2-1-1" = true :=
  (loadTile_failure_marks_error initialViewerState initialViewerState.loadingTiles 0 0
    "pr-0-2-1-1" rfl rfl).2.2.2.2.1

/-! ## C7: animation wraparound -/

/-- C7: a playback tick maps `timeIndex` to `(timeIndex + 1) % timeCount`; in
particular index 23 of 24 wraps to 0, and any in-range index stays in range. -/
theorem animationTick_wraparound :
    animationTick 23 24 = 0 ∧ ∀ i n : ℕ, i < n → animationTick i n < n := by
  refine ⟨rfl, ?_⟩
  intro i n h
  exact Nat.mod_lt _ (Nat.lt_of_le_of_lt (Nat.zero_le i) h)

/-- Witness for C7: a mid-range tick stays in range. -/
theorem animationTick_wraparound_witness : animationTick 5 24 < 24 :=
  animationTick_wraparound.2 5 24 (by decide)

/-! ## C9: determinism of the tile renderer -/

/-- C9: `renderTileToCanvas` is a pure function of the tile matrix, the
statistics, the scale name and the opacity — two runs on equal inputs produce
equal pixel buffers. -/
theorem renderTileToCanvas_deterministic (t1 t2 : List (List ℚ)) (mn1 mn2 mx1 mx2 : ℚ)
    (sc1 sc2 : String) (op1 op2 : ℚ)
    (ht : t1 = t2) (hmn : mn1 = mn2) (hmx : mx1 = mx2) (hsc : sc1 = sc2) (hop : op1 = op2) :
    renderTileToCanvas t1 mn1 mx1 sc1 op1 = renderTileToCanvas t2 mn2 mx2 sc2 op2 := by
  subst ht hmn hmx hsc hop
  rfl

/-- Witness for C9 at concrete equal inputs. -/
theorem renderTileToCanvas_deterministic_witness :
    renderTileToCanvas [] 0 1 "viridis" 80 = renderTileToCanvas [] 0 1 "viridis" 80 :=
  renderTileToCanvas_deterministic [] [] 0 0 1 1 "viridis" "viridis" 80 80 rfl rfl rfl rfl rfl

/-! ## C8: missing-cell default of the renderer -/

/-- Helper: a `flatMap` whose blocks all have length `k` has length `l.length * k`. -/
theorem flatMap_length_const {α β : Type} (l : List α) (f : α → List β) (k : ℕ)
    (h : ∀ a ∈ l, (f a).length = k) : (l.flatMap f).length = l.length * k := by
  induction l with
  | nil => simp
  | cons a l ih =>
    simp only [List.flatMap_cons, List.length_append, List.length_cons]
    rw [h a (List.mem_cons_self a l), ih fun x hx => h x (List.mem_cons_of_mem a hx)]
    ring

/-- Helper: `flatMap` only depends on the function's values on the list. -/
theorem flatMap_congr_mem {α β : Type} (l : List α) (f g : α → List β)
    (h : ∀ a ∈ l, f a = g a) : l.flatMap f = l.flatMap g := by
  induction l with
  | nil => rfl
  | cons a l ih =>
    simp only [List.flatMap_cons]
    rw [h a (List.mem_cons_self a l), ih fun x hx => h x (List.mem_cons_of_mem a hx)]

/-- Helper: reading a cell of the completed matrix gives the defaulted cell value. -/
theorem cellValue_completeTile (tile : List (List ℚ)) (i j : ℕ)
    (hi : i < 256) (hj : j < 256) :
    cellValue (completeTile tile) i j = cellValue tile i j := by
  have h1 : (completeTile tile).get? i =
      some ((List.range 256).map fun j => cellValue tile i j) := by
    unfold completeTile
    rw [List.get?_map, List.get?_range hi]
    rfl
  have h2 : ((List.range 256).map fun j => cellValue tile i j).get? j =
      some (cellValue tile i j) := by
    rw [List.get?_map, List.get?_range hj]
    rfl
  show (((completeTile tile).get? i).bind fun row => row.get? j).getD 0 = cellValue tile i j
  rw [h1]
  show (((List.range 256).map fun j => cellValue tile i j).get? j).getD 0 = cellValue tile i j
  rw [h2]
  rfl

/-- C8: `renderTileToCanvas` always produces a complete 256×256×4 buffer,
its output on any (possibly ragged or short) matrix equals its output on the
fully defaulted 256×256 completion, and an absent entry reads as value `0`. -/
theorem renderTileToCanvas_missing_default (tile : List (List ℚ)) (statsMin statsMax : ℚ)
    (colorScale : String) (opacity : ℚ) :
    (renderTileToCanvas tile statsMin statsMax colorScale opacity).length = 256 * 256 * 4 ∧
    renderTileToCanvas tile statsMin statsMax colorScale opacity =
      renderTileToCanvas (completeTile tile) statsMin statsMax colorScale opacity ∧
    (∀ i j : ℕ, ((tile.get? i).bind fun row => row.get? j) = none →
        cellValue tile i j = 0) := by
  refine ⟨?_, ?_, ?_⟩
  · unfold renderTileToCanvas
    rw [flatMap_length_const _ _ 1024 ?_]
    · simp
    · intro i _
      rw [flatMap_length_const _ _ 4 ?_]
      · simp
      · intro j _
        rfl
  · unfold renderTileToCanvas
    refine flatMap_congr_mem _ _ _ fun i hi => ?_
    refine flatMap_congr_mem _ _ _ fun j hj => ?_
    rw [cellValue_completeTile tile i j (List.mem_range.1 hi) (List.mem_range.1 hj)]
  · intro i j h
    unfold cellValue
    rw [h]
    rfl

/-- Witness for C8's inner implication at the empty matrix. -/
theorem renderTileToCanvas_missing_default_witness :
    (renderTileToCanvas [] 0 1 "plasma" 80).length = 256 * 256 * 4 :=
  (renderTileToCanvas_missing_default [] 0 1 "plasma" 80).1

/-! ## C3: range of the tile addresses produced by `calculateTileGrid` -/

/-- Helper: membership in the loop range `intRange lo hi`. -/
theorem mem_intRange {lo hi a : ℤ} : a ∈ intRange lo hi ↔ lo ≤ a ∧ a ≤ hi := by
  unfold intRange
  simp only [List.mem_map, List.mem_range]
  constructor
  · rintro ⟨i, hilt, rfl⟩
    omega
  · rintro ⟨h1, h2⟩
    exact ⟨(a - lo).toNat, by omega, by omega⟩

/-- Helper: characterization of the tile addresses emitted by the nested loops
of `calculateTileGrid`. -/
theorem mem_calculateTileGrid {b : ViewportBounds} {zoom : ℕ} {x y : ℤ} {z : ℕ} :
    (x, y, z) ∈ calculateTileGrid b zoom ↔
      z = zoom ∧
      max 0 (tileStartX b zoom) ≤ x ∧ x ≤ min ((2 ^ zoom : ℤ) - 1) (tileEndX b zoom) ∧
      max 0 (tileStartY b zoom) ≤ y ∧ y ≤ min ((2 ^ zoom : ℤ) - 1) (tileEndY b zoom) := by
  unfold calculateTileGrid
  simp only [List.mem_flatMap, List.mem_map, mem_intRange, Prod.mk.injEq]
  constructor
  · rintro ⟨x', ⟨hx1, hx2⟩, y', ⟨hy1, hy2⟩, rfl, rfl, rfl⟩
    exact ⟨rfl, hx1, hx2, hy1, hy2⟩
  · rintro ⟨rfl, hx1, hx2, hy1, hy2⟩
    exact ⟨x, ⟨hx1, hx2⟩, y, ⟨hy1, hy2⟩, rfl, rfl, rfl⟩

/-- C3 (amended): for a viewport with latitudes in `[-90, 90]` and longitudes
in `[-180, 180]`, every tile address `(x, y, z)` produced by
`calculateTileGrid` satisfies `0 ≤ x, y < 2^zoom`, and the result is exactly
the Cartesian product of the x-range
`[max 0 startX, min (2^zoom - 1) endX]` and the analogous y-range (the loop
clamps the floor lower bounds from below at `0` and the ceil upper bounds from
above at `2^zoom - 1`). -/
theorem calculateTileGrid_range (b : ViewportBounds) (zoom : ℕ)
    (hn1 : -90 ≤ b.north) (hn2 : b.north ≤ 90)
    (hs1 : -90 ≤ b.south) (hs2 : b.south ≤ 90)
    (he1 : -180 ≤ b.east) (he2 : b.east ≤ 180)
    (hw1 : -180 ≤ b.west) (hw2 : b.west ≤ 180) :
    (∀ t ∈ calculateTileGrid b zoom,
        0 ≤ t.1 ∧ t.1 < 2 ^ zoom ∧ 0 ≤ t.2.1 ∧ t.2.1 < 2 ^ zoom) ∧
    (∀ (x y : ℤ) (z : ℕ),
        (x, y, z) ∈ calculateTileGrid b zoom ↔
          z = zoom ∧
          max 0 (tileStartX b zoom) ≤ x ∧ x ≤ min ((2 ^ zoom : ℤ) - 1) (tileEndX b zoom) ∧
          max 0 (tileStartY b zoom) ≤ y ∧ y ≤ min ((2 ^ zoom : ℤ) - 1) (tileEndY b zoom)) := by
  constructor
  · rintro ⟨x, y, z⟩ ht
    rw [mem_calculateTileGrid] at ht
    obtain ⟨-, hx1, hx2, hy1, hy2⟩ := ht
    have hxlo := le_trans (le_max_left 0 (tileStartX b zoom)) hx1
    have hxhi := le_trans hx2 (min_le_left ((2 ^ zoom : ℤ) - 1) (tileEndX b zoom))
    have hylo := le_trans (le_max_left 0 (tileStartY b zoom)) hy1
    have hyhi := le_trans hy2 (min_le_left ((2 ^ zoom : ℤ) - 1) (tileEndY b zoom))
    exact ⟨hxlo, by linarith, hylo, by linarith⟩
  · intro x y z
    exact mem_calculateTileGrid

/-- Witness for C3's amended theorem: the whole-world viewport at zoom 0. -/
theorem calculateTileGrid_range_witness :
    (((0 : ℤ), (0 : ℤ), (0 : ℕ)) ∈ calculateTileGrid worldBounds 0 ↔
      (0 : ℕ) = 0 ∧
      max 0 (tileStartX worldBounds 0) ≤ 0 ∧
      (0 : ℤ) ≤ min ((2 ^ 0 : ℤ) - 1) (tileEndX worldBounds 0) ∧
      max 0 (tileStartY worldBounds 0) ≤ 0 ∧
      (0 : ℤ) ≤ min ((2 ^ 0 : ℤ) - 1) (tileEndY worldBounds 0)) :=
  (calculateTileGrid_range worldBounds 0 (by norm_num [worldBounds])
    (by norm_num [worldBounds]) (by norm_num [worldBounds]) (by norm_num [worldBounds])
    (by norm_num [worldBounds]) (by norm_num [worldBounds]) (by norm_num [worldBounds])
    (by norm_num [worldBounds])).2 0 0 0

/-- C3 counterexample: for the viewport with `west = east = 180` (longitudes in
`[-180, 180]`, latitudes in `[-90, 90]`) at zoom 0, the code produces the empty
tile list, while the spec's "clamp to `[0, tilesPerRow-1]`, then take the
Cartesian product of the clamped ranges" produces the tile `(0, 0, 0)` — so the
result is not the Cartesian product of the both-sided-clamped ranges. -/
theorem calculateTileGrid_clamp_counterexample :
    (-90 ≤ degenerateBounds.south ∧ degenerateBounds.south ≤ 90 ∧
      -90 ≤ degenerateBounds.north ∧ degenerateBounds.north ≤ 90 ∧
      -180 ≤ degenerateBounds.west ∧ degenerateBounds.west ≤ 180 ∧
      -180 ≤ degenerateBounds.east ∧ degenerateBounds.east ≤ 180) ∧
    calculateTileGrid degenerateBounds 0 = [] ∧
    specClampedTileGrid degenerateBounds 0 = [((0 : ℤ), (0 : ℤ), (0 : ℕ))] := by
  have hsx : tileStartX degenerateBounds 0 = 1 := by
    norm_num [tileStartX, degenerateBounds]
  have hex : tileEndX degenerateBounds 0 = 1 := by
    norm_num [tileEndX, degenerateBounds]
  have hsy : tileStartY degenerateBounds 0 = 0 := by
    norm_num [tileStartY, degenerateBounds]
  have hey : tileEndY degenerateBounds 0 = 1 := by
    norm_num [tileEndY, degenerateBounds]
  refine ⟨by norm_num [degenerateBounds], ?_, ?_⟩
  · unfold calculateTileGrid
    rw [hsx, hex, hsy, hey]
    norm_num [intRange]
  · unfold specClampedTileGrid
    rw [hsx, hex, hsy, hey]
    norm_num [intRange]
    decide

/-! ## C4: degenerate-range normalization divides by zero -/

/-- C4: with degenerate statistics (`min = max = 5`) the normalization
expression of the color mappers divides by zero instead of defining `t = 0`:
under IEEE-754 semantics the cell value `7` gives `(7-5)/0 = +Infinity`, which
the clamp turns into `t = 1` (the top of the scale), and the cell value `5`
gives `0/0 = NaN`, an undefined result. -/
theorem normalizedJS_degenerate :
    normalizedJS 7 5 5 = JSNum.fin 1 ∧ normalizedJS 7 5 5 ≠ JSNum.fin 0 ∧
    normalizedJS 5 5 5 = JSNum.nan := by
  have h2 : (7 - 5 : ℚ) = 2 := by norm_num
  have h0 : (5 - 5 : ℚ) = 0 := by norm_num
  have hd1 : JSNum.div (.fin (7 - 5 : ℚ)) (.fin (5 - 5 : ℚ)) = .posInf := by
    rw [h2, h0]
    simp only [JSNum.div]
    norm_num
  have hd2 : JSNum.div (.fin (5 - 5 : ℚ)) (.fin (5 - 5 : ℚ)) = .nan := by
    rw [h0]
    simp only [JSNum.div]
    norm_num
  have hfin : normalizedJS 7 5 5 = JSNum.fin 1 := by
    unfold normalizedJS
    rw [hd1]
    show JSNum.maxJ (.fin 0) (.fin 1) = .fin 1
    show JSNum.fin (max 0 1) = .fin 1
    norm_num
  refine ⟨hfin, ?_, ?_⟩
  · rw [hfin]
    intro h
    injection h with h
    norm_num at h
  · unfold normalizedJS
    rw [hd2]
    rfl

/-! ## C10: injectivity of `getTileKey` -/

/-- Helper: decimal digit characters are never the hyphen separator. -/
theorem digitChar_ne_dash {d : ℕ} (h : d < 10) : digitChar d ≠ '-' := by
  interval_cases d <;> decide

/-- Helper: the numeric value of a digit character. -/
theorem digitChar_val {d : ℕ} (h : d < 10) : (digitChar d).toNat - 48 = d := by
  interval_cases d <;> decide

/-- Helper: a decimal rendering contains no hyphen. -/
theorem natDigits_no_dash (n : ℕ) : '-' ∉ natDigits n := by
  induction n using Nat.strong_induction_on with
  | _ n ih =>
    rw [natDigits]
    split_ifs with h
    · intro hm
      exact digitChar_ne_dash h (List.mem_singleton.1 hm).symm
    · intro hm
      rcases List.mem_append.1 hm with hm | hm
      · exact ih (n / 10) (Nat.div_lt_self (by omega) (by omega)) hm
      · exact digitChar_ne_dash (Nat.mod_lt _ (by omega)) (List.mem_singleton.1 hm).symm

/-- Helper: folding the digit values over a decimal rendering recovers the
number (with an arbitrary accumulator seed). -/
theorem natDigits_foldl (n : ℕ) : ∀ a : ℕ,
    (natDigits n).foldl (fun acc c => 10 * acc + (c.toNat - 48)) a =
      a * 10 ^ (natDigits n).length + n := by
  induction n using Nat.strong_induction_on with
  | _ n ih =>
    intro a
    rw [natDigits]
    split_ifs with h
    · simp only [List.foldl_cons, List.foldl_nil, List.length_singleton]
      rw [digitChar_val h]
      ring
    · rw [List.foldl_append, ih (n / 10) (Nat.div_lt_self (by omega) (by omega)) a]
      simp only [List.foldl_cons, List.foldl_nil, List.length_append,
        List.length_singleton]
      rw [digitChar_val (Nat.mod_lt _ (by omega))]
      calc 10 * (a * 10 ^ (natDigits (n / 10)).length + n / 10) + n % 10
          = a * (10 ^ (natDigits (n / 10)).length * 10) + (10 * (n / 10) + n % 10) := by
            ring
        _ = a * 10 ^ ((natDigits (n / 10)).length + 1) + n := by
            rw [Nat.div_add_mod, pow_succ]

/-- Helper: decimal renderings of distinct numbers are distinct. -/
theorem natDigits_injective {m n : ℕ} (h : natDigits m = natDigits n) : m = n := by
  have hm := natDigits_foldl m 0
  have hn := natDigits_foldl n 0
  rw [h, hn] at hm
  simp only [Nat.zero_mul, Nat.zero_add] at hm
  exact hm.symm

/-- Helper: splitting a hyphen-joined pair at its first hyphen is unambiguous
when the left parts are hyphen-free. -/
theorem hyphen_split :
    ∀ (a c b d : List Char), '-' ∉ a → '-' ∉ c → a ++ '-' :: b = c ++ '-' :: d →
      a = c ∧ b = d := by
  intro a
  induction a with
  | nil =>
    intro c b d _ hc h
    cases c with
    | nil =>
      simp only [List.nil_append] at h
      injection h with _ h2
      exact ⟨rfl, h2⟩
    | cons ch ct =>
      simp only [List.nil_append, List.cons_append] at h
      injection h with h1 _
      exfalso
      apply hc
      rw [← h1]
      exact List.mem_cons_self _ _
  | cons a1 tl ih =>
    intro c b d ha hc h
    cases c with
    | nil =>
      simp only [List.nil_append, List.cons_append] at h
      injection h with h1 _
      exfalso
      apply ha
      rw [h1]
      exact List.mem_cons_self _ _
    | cons ch ct =>
      simp only [List.cons_append] at h
      injection h with h1 h2
      subst h1
      obtain ⟨h3, h4⟩ := ih ct b d (fun hm => ha (List.mem_cons_of_mem _ hm))
        (fun hm => hc (List.mem_cons_of_mem _ hm)) h2
      exact ⟨by rw [h3], h4⟩

/-- Helper: the character list underlying a tile key. -/
theorem getTileKey_data (x y z : ℕ) (v : String) (t : ℕ) :
    (getTileKey x y z v t).data =
      v.data ++ '-' :: (natDigits t ++ '-' :: (natDigits z ++ '-' ::
        (natDigits x ++ '-' :: natDigits y))) := by
  have hdash : ("-" : String).data = ['-'] := rfl
  unfold getTileKey natToString
  simp [String.data_append, hdash, List.append_assoc]

/-- C10: `getTileKey` is injective — for non-negative integer coordinates and
hyphen-free variable names, two tile keys are equal exactly when all five
components are equal, so the hyphen-joined string is a sound cache identity. -/
theorem getTileKey_injective (x1 y1 z1 t1 x2 y2 z2 t2 : ℕ) (v1 v2 : String)
    (h1 : '-' ∉ v1.data) (h2 : '-' ∉ v2.data) :
    getTileKey x1 y1 z1 v1 t1 = getTileKey x2 y2 z2 v2 t2 ↔
      (x1 = x2 ∧ y1 = y2 ∧ z1 = z2 ∧ v1 = v2 ∧ t1 = t2) := by
  constructor
  · intro h
    have hd : (getTileKey x1 y1 z1 v1 t1).data = (getTileKey x2 y2 z2 v2 t2).data := by
      rw [h]
    rw [getTileKey_data, getTileKey_data] at hd
    obtain ⟨hv, hd⟩ := hyphen_split _ _ _ _ h1 h2 hd
    obtain ⟨ht, hd⟩ := hyphen_split _ _ _ _ (natDigits_no_dash t1) (natDigits_no_dash t2) hd
    obtain ⟨hz, hd⟩ := hyphen_split _ _ _ _ (natDigits_no_dash z1) (natDigits_no_dash z2) hd
    obtain ⟨hx, hy⟩ := hyphen_split _ _ _ _ (natDigits_no_dash x1) (natDigits_no_dash x2) hd
    exact ⟨natDigits_injective hx, natDigits_injective hy, natDigits_injective hz,
      String.ext hv, natDigits_injective ht⟩
  · rintro ⟨rfl, rfl, rfl, rfl, rfl⟩
    rfl

/-- Witness for C10 at the key of tile `(pr, 0, 2, 1, 1)`. -/
theorem getTileKey_injective_witness :
    getTileKey 1 1 2 "pr" 0 = getTileKey 1 1 2 "pr" 0 ↔
      (1 = 1 ∧ 1 = 1 ∧ 2 = 2 ∧ ("pr" : String) = "pr" ∧ 0 = 0) :=
  getTileKey_injective 1 1 2 0 1 1 2 0 "pr" "pr" (by decide) (by decide)

/-! ## C5: range and endpoint exactness of `interpolateColor` -/

/-- Helper: `Math.round` of an integer is that integer. -/
theorem jsRound_intCast (z : ℤ) : jsRound (z : ℚ) = z := by
  unfold jsRound
  rw [add_comm, Int.floor_add_int]
  norm_num

/-- Helper: `Math.round` of a value in a concrete window. -/
theorem jsRound_eq_of (q : ℚ) (z : ℤ) (hlo : (z : ℚ) ≤ q + 1/2) (hhi : q + 1/2 < (z : ℚ) + 1) :
    jsRound q = z := by
  unfold jsRound
  exact Int.floor_eq_iff.2 ⟨hlo, hhi⟩

/-- Helper: `Math.round` of a non-negative value is non-negative. -/
theorem jsRound_nonneg {q : ℚ} (h : 0 ≤ q) : 0 ≤ jsRound q := by
  unfold jsRound
  exact Int.le_floor.2 (by push_cast; linarith)

/-- Helper: `Math.round` of a value at most 255 is at most 255. -/
theorem jsRound_le_255 {q : ℚ} (h : q ≤ 255) : jsRound q ≤ 255 := by
  unfold jsRound
  have h2 : (⌊q + 1/2⌋ : ℤ) < 256 := Int.floor_lt.2 (by push_cast; linarith)
  omega

/-- Helper: channel bounds for one interpolated RGB triple. -/
theorem chans255_interp (lr hr lg hg lb hb : ℤ) (t : ℚ)
    (ht0 : 0 ≤ t) (ht1 : t ≤ 1)
    (hB : 0 ≤ lr ∧ lr ≤ 255 ∧ 0 ≤ hr ∧ hr ≤ 255 ∧ 0 ≤ lg ∧ lg ≤ 255 ∧
      0 ≤ hg ∧ hg ≤ 255 ∧ 0 ≤ lb ∧ lb ≤ 255 ∧ 0 ≤ hb ∧ hb ≤ 255) :
    chans255 (jsRound ((lr : ℚ) + ((hr : ℚ) - (lr : ℚ)) * t),
      jsRound ((lg : ℚ) + ((hg : ℚ) - (lg : ℚ)) * t),
      jsRound ((lb : ℚ) + ((hb : ℚ) - (lb : ℚ)) * t)) := by
  obtain ⟨h1, h2, h3, h4, h5, h6, h7, h8, h9, h10, h11, h12⟩ := hB
  have key : ∀ lo hi : ℤ, 0 ≤ lo → lo ≤ 255 → 0 ≤ hi → hi ≤ 255 →
      0 ≤ jsRound ((lo : ℚ) + ((hi : ℚ) - (lo : ℚ)) * t) ∧
      jsRound ((lo : ℚ) + ((hi : ℚ) - (lo : ℚ)) * t) ≤ 255 := by
    intro lo hi hlo0 hlo255 hhi0 hhi255
    have hL0 : (0 : ℚ) ≤ (lo : ℚ) := by exact_mod_cast hlo0
    have hL1 : (lo : ℚ) ≤ 255 := by exact_mod_cast hlo255
    have hH0 : (0 : ℚ) ≤ (hi : ℚ) := by exact_mod_cast hhi0
    have hH1 : (hi : ℚ) ≤ 255 := by exact_mod_cast hhi255
    have k1 : (0 : ℚ) ≤ (lo : ℚ) * (1 - t) := mul_nonneg hL0 (by linarith)
    have k2 : (0 : ℚ) ≤ (hi : ℚ) * t := mul_nonneg hH0 ht0
    have k3 : (0 : ℚ) ≤ (255 - (lo : ℚ)) * (1 - t) := mul_nonneg (by linarith) (by linarith)
    have k4 : (0 : ℚ) ≤ (255 - (hi : ℚ)) * t := mul_nonneg (by linarith) ht0
    constructor
    · exact jsRound_nonneg (by nlinarith)
    · exact jsRound_le_255 (by nlinarith)
  unfold chans255
  exact ⟨(key lr hr h1 h2 h3 h4).1, (key lr hr h1 h2 h3 h4).2,
    (key lg hg h5 h6 h7 h8).1, (key lg hg h5 h6 h7 h8).2,
    (key lb hb h9 h10 h11 h12).1, (key lb hb h9 h10 h11 h12).2⟩

/-- Helper: one unfolding step of the bracketing-stop loop. -/
theorem bracketFrom_cons (s0 s1 : ColorStop) (rest : List ColorStop) (n : ℚ) (i : ℕ) :
    bracketFrom (s0 :: s1 :: rest) n i =
      if s0.pos ≤ n ∧ n ≤ s1.pos then some i else bracketFrom (s1 :: rest) n (i + 1) := rfl

/-- Helper: on a scale whose first stop is at most `n` and whose last stop is at
least `n`, the bracketing loop finds an adjacent pair of stops enclosing `n`. -/
theorem bracketFrom_spec : ∀ (scale : List ColorStop) (n : ℚ) (i : ℕ),
    2 ≤ scale.length →
    (scale.getD 0 ⟨0, 0, 0, 0⟩).pos ≤ n →
    n ≤ (scale.getD (scale.length - 1) ⟨0, 0, 0, 0⟩).pos →
    ∃ k, bracketFrom scale n i = some (i + k) ∧ k + 1 < scale.length ∧
      (scale.getD k ⟨0, 0, 0, 0⟩).pos ≤ n ∧ n ≤ (scale.getD (k + 1) ⟨0, 0, 0, 0⟩).pos := by
  intro scale
  induction scale with
  | nil =>
    intro n i h2 _ _
    simp at h2
  | cons s0 rest ih =>
    intro n i h2 hhead hlast
    cases rest with
    | nil => simp at h2
    | cons s1 rest2 =>
      have hhead' : s0.pos ≤ n := by simpa using hhead
      by_cases hc : s0.pos ≤ n ∧ n ≤ s1.pos
      · refine ⟨0, ?_, ?_, ?_, ?_⟩
        · rw [bracketFrom_cons, if_pos hc]
          norm_num
        · simp only [List.length_cons]
          omega
        · simpa using hc.1
        · simpa using hc.2
      · have hs1 : s1.pos ≤ n := by
          by_contra hno
          push_neg at hno
          exact hc ⟨hhead', le_of_lt hno⟩
        cases rest2 with
        | nil =>
          exfalso
          apply hc
          refine ⟨hhead', ?_⟩
          simpa using hlast
        | cons s2 rest3 =>
          have hlast' : n ≤ ((s1 :: s2 :: rest3).getD
              ((s1 :: s2 :: rest3).length - 1) ⟨0, 0, 0, 0⟩).pos := by
            simp only [List.length_cons] at hlast ⊢
            simpa [List.getD_cons_succ] using hlast
          obtain ⟨k, hbk, hklen, hk1, hk2⟩ :=
            ih n (i + 1) (by simp only [List.length_cons]; omega)
              (by simpa using hs1) hlast'
          refine ⟨k + 1, ?_, ?_, ?_, ?_⟩
          · rw [bracketFrom_cons, if_neg hc, hbk]
            exact congrArg some (by omega)
          · simp only [List.length_cons] at hklen ⊢
            omega
          · simpa [List.getD_cons_succ] using hk1
          · simpa [List.getD_cons_succ] using hk2

/-- Helper: reduction of `interpAt` once the bracketing loop's result is known. -/
theorem interpAt_eq (scale : List ColorStop) (n : ℚ) (i : ℕ) (s0 s1 : ColorStop)
    (hb : bracketFrom scale n 0 = some i)
    (hl : scale.getD i ⟨0, 0, 0, 0⟩ = s0)
    (hu : scale.getD (i + 1) ⟨0, 0, 0, 0⟩ = s1) :
    interpAt scale n =
      (jsRound ((s0.r : ℚ) + ((s1.r : ℚ) - (s0.r : ℚ)) * ((n - s0.pos) / (s1.pos - s0.pos))),
       jsRound ((s0.g : ℚ) + ((s1.g : ℚ) - (s0.g : ℚ)) * ((n - s0.pos) / (s1.pos - s0.pos))),
       jsRound ((s0.b : ℚ) + ((s1.b : ℚ) - (s0.b : ℚ)) * ((n - s0.pos) / (s1.pos - s0.pos)))) := by
  have hf : findBracket scale n = (i, i + 1) := by
    unfold findBracket
    rw [hb]
  simp only [interpAt, hf, hl, hu]
  rw [if_neg (by omega : ¬ i + 1 = i)]

/-- Helper: membership of getD in the list. -/
theorem getD_mem_of_lt (l : List ColorStop) (k : ℕ) (d : ColorStop) (h : k < l.length) :
    l.getD k d ∈ l := by
  rw [List.getD_eq_getElem l d h]
  exact List.getElem_mem h

/-- Helper: on any scale with in-range channels whose stops enclose `n`, the
interpolated color has all channels in `[0, 255]`. -/
theorem interpAt_mem (scale : List ColorStop) (n : ℚ)
    (hchan : ∀ s ∈ scale, 0 ≤ s.r ∧ s.r ≤ 255 ∧ 0 ≤ s.g ∧ s.g ≤ 255 ∧ 0 ≤ s.b ∧ s.b ≤ 255)
    (hlen : 2 ≤ scale.length)
    (hhead : (scale.getD 0 ⟨0, 0, 0, 0⟩).pos ≤ n)
    (hlast : n ≤ (scale.getD (scale.length - 1) ⟨0, 0, 0, 0⟩).pos) :
    chans255 (interpAt scale n) := by
  obtain ⟨k, hbk, hklen, hk1, hk2⟩ := bracketFrom_spec scale n 0 hlen hhead hlast
  rw [Nat.zero_add] at hbk
  rw [interpAt_eq scale n k (scale.getD k ⟨0, 0, 0, 0⟩) (scale.getD (k + 1) ⟨0, 0, 0, 0⟩)
    hbk rfl rfl]
  have hposle : (scale.getD k ⟨0, 0, 0, 0⟩).pos ≤ (scale.getD (k + 1) ⟨0, 0, 0, 0⟩).pos :=
    le_trans hk1 hk2
  have ht : 0 ≤ (n - (scale.getD k ⟨0, 0, 0, 0⟩).pos) /
        ((scale.getD (k + 1) ⟨0, 0, 0, 0⟩).pos - (scale.getD k ⟨0, 0, 0, 0⟩).pos) ∧
      (n - (scale.getD k ⟨0, 0, 0, 0⟩).pos) /
        ((scale.getD (k + 1) ⟨0, 0, 0, 0⟩).pos - (scale.getD k ⟨0, 0, 0, 0⟩).pos) ≤ 1 := by
    rcases lt_or_eq_of_le hposle with hlt | heq
    · constructor
      · exact div_nonneg (by linarith) (by linarith)
      · rw [div_le_one (by linarith)]
        linarith
    · rw [← heq, sub_self, div_zero]
      norm_num
  obtain ⟨hr0, hr2, hg0, hg2, hb0, hb2⟩ :=
    hchan _ (getD_mem_of_lt scale k ⟨0, 0, 0, 0⟩ (by omega))
  obtain ⟨hr0', hr2', hg0', hg2', hb0', hb2'⟩ :=
    hchan _ (getD_mem_of_lt scale (k + 1) ⟨0, 0, 0, 0⟩ (by omega))
  exact chans255_interp _ _ _ _ _ _ _ ht.1 ht.2
    ⟨hr0, hr2, hr0', hr2', hg0, hg2, hg0', hg2', hb0, hb2, hb0', hb2'⟩

/-- Helper: `interpAt` at normalized value `0` returns the first control point's
color, for any scale whose first stop is at `0` and whose second stop is
positive. -/
theorem interpAt_first (s0 s1 : ColorStop) (rest : List ColorStop)
    (hpos : s0.pos = 0) (hlt : 0 < s1.pos) :
    interpAt (s0 :: s1 :: rest) 0 = (s0.r, s0.g, s0.b) := by
  have hb : bracketFrom (s0 :: s1 :: rest) 0 0 = some 0 := by
    rw [bracketFrom_cons, if_pos ⟨le_of_eq hpos, le_of_lt hlt⟩]
  rw [interpAt_eq (s0 :: s1 :: rest) 0 0 s0 s1 hb List.getD_cons_zero
    (by simp [List.getD_cons_succ])]
  rw [hpos]
  norm_num [jsRound_intCast]

/-- Helper: the viridis ramp at normalized value `1` gives the last control color. -/
theorem interpAt_viridis_one : interpAt viridisScale 1 = (253, 231, 37) := by
  have hb : bracketFrom viridisScale 1 0 = some 3 := by
    unfold viridisScale
    rw [bracketFrom_cons, if_neg (by norm_num), bracketFrom_cons, if_neg (by norm_num),
      bracketFrom_cons, if_neg (by norm_num), bracketFrom_cons, if_pos (by norm_num)]
  rw [interpAt_eq viridisScale 1 3 ⟨3/4, 94, 201, 98⟩ ⟨1, 253, 231, 37⟩ hb rfl rfl]
  simp only [Prod.mk.injEq]
  refine ⟨?_, ?_, ?_⟩ <;> exact jsRound_eq_of _ _ (by norm_num) (by norm_num)

/-- Helper: the plasma ramp at normalized value `1` gives the last control color. -/
theorem interpAt_plasma_one : interpAt plasmaScale 1 = (240, 249, 33) := by
  have hb : bracketFrom plasmaScale 1 0 = some 3 := by
    unfold plasmaScale
    rw [bracketFrom_cons, if_neg (by norm_num), bracketFrom_cons, if_neg (by norm_num),
      bracketFrom_cons, if_neg (by norm_num), bracketFrom_cons, if_pos (by norm_num)]
  rw [interpAt_eq plasmaScale 1 3 ⟨3/4, 248, 149, 64⟩ ⟨1, 240, 249, 33⟩ hb rfl rfl]
  simp only [Prod.mk.injEq]
  refine ⟨?_, ?_, ?_⟩ <;> exact jsRound_eq_of _ _ (by norm_num) (by norm_num)

/-- Helper: the blues ramp at normalized value `1` gives the last control color. -/
theorem interpAt_blues_one : interpAt bluesScale 1 = (8, 81, 156) := by
  have hb : bracketFrom bluesScale 1 0 = some 3 := by
    unfold bluesScale
    rw [bracketFrom_cons, if_neg (by norm_num), bracketFrom_cons, if_neg (by norm_num),
      bracketFrom_cons, if_neg (by norm_num), bracketFrom_cons, if_pos (by norm_num)]
  rw [interpAt_eq bluesScale 1 3 ⟨3/4, 49, 130, 189⟩ ⟨1, 8, 81, 156⟩ hb rfl rfl]
  simp only [Prod.mk.injEq]
  refine ⟨?_, ?_, ?_⟩ <;> exact jsRound_eq_of _ _ (by norm_num) (by norm_num)

/-- Helper: the precipitation ramp at normalized value `1` gives the last
control color. -/
theorem interpAt_precipitation_one : interpAt precipitationScale 1 = (34, 94, 168) := by
  have hb : bracketFrom precipitationScale 1 0 = some 4 := by
    unfold precipitationScale
    rw [bracketFrom_cons, if_neg (by norm_num), bracketFrom_cons, if_neg (by norm_num),
      bracketFrom_cons, if_neg (by norm_num), bracketFrom_cons, if_neg (by norm_num),
      bracketFrom_cons, if_pos (by norm_num)]
  rw [interpAt_eq precipitationScale 1 4 ⟨4/5, 29, 145, 192⟩ ⟨1, 34, 94, 168⟩ hb rfl rfl]
  simp only [Prod.mk.injEq]
  refine ⟨?_, ?_, ?_⟩ <;> exact jsRound_eq_of _ _ (by norm_num) (by norm_num)

/-- C5: for every scale name and statistics with `min < max`, the interpolated
color of any value in `[min, max]` has integer channels in `[0, 255]`, and the
colors of `min` and `max` are exactly the first and last control-point colors
of the chosen ramp (the named ramp, or the viridis fallback). -/
theorem interpolateColor_range_endpoints (name : String) (minV maxV : ℚ)
    (hlt : minV < maxV) :
    (∀ v, minV ≤ v → v ≤ maxV → chans255 (interpolateColor v minV maxV name)) ∧
    interpolateColor minV minV maxV name = firstStopColor (getColorScales name) ∧
    interpolateColor maxV minV maxV name = lastStopColor (getColorScales name) := by
  have hcases : getColorScales name = viridisScale ∨ getColorScales name = plasmaScale ∨
      getColorScales name = bluesScale ∨ getColorScales name = precipitationScale := by
    unfold getColorScales
    split_ifs <;> simp
  have hz : interpolateColor minV minV maxV name = interpAt (getColorScales name) 0 := by
    unfold interpolateColor
    rw [sub_self, zero_div, min_eq_right (by norm_num : (0:ℚ) ≤ 1), max_self]
  have ho : interpolateColor maxV minV maxV name = interpAt (getColorScales name) 1 := by
    unfold interpolateColor
    rw [div_self (sub_ne_zero_of_ne (ne_of_gt hlt)), min_self,
      max_eq_right (by norm_num : (0:ℚ) ≤ 1)]
  refine ⟨?_, ?_, ?_⟩
  · intro v hv1 hv2
    have hn0 : (0:ℚ) ≤ max 0 (min 1 ((v - minV) / (maxV - minV))) := le_max_left _ _
    have hn1 : max 0 (min 1 ((v - minV) / (maxV - minV))) ≤ 1 :=
      max_le (by norm_num) (min_le_left _ _)
    show chans255 (interpAt (getColorScales name) (max 0 (min 1 ((v - minV) / (maxV - minV)))))
    rcases hcases with h | h | h | h <;> rw [h] <;>
      exact interpAt_mem _ _ (by decide) (by decide) hn0 hn1
  · rw [hz]
    rcases hcases with h | h | h | h <;> rw [h] <;>
      exact interpAt_first _ _ _ rfl (by norm_num)
  · rw [ho]
    rcases hcases with h | h | h | h <;> rw [h]
    · exact interpAt_viridis_one
    · exact interpAt_plasma_one
    · exact interpAt_blues_one
    · exact interpAt_precipitation_one

/-- Witness for C5: the viridis ramp over `[0, 1]` at the lower endpoint. -/
theorem interpolateColor_range_endpoints_witness :
    interpolateColor 0 0 1 "viridis" = firstStopColor (getColorScales "viridis") :=
  (interpolateColor_range_endpoints "viridis" 0 1 (by norm_num)).2.1
